import Mathlib

/-
Verification of the KnowBot backend against its natural-language
specification.

The development shallowly embeds the parts of the backend that the checked
claims are about:

* the upload validation and upload flow
  (`backend/api/serializers.py` `DocumentUploadSerializer.validate_file`,
   `backend/api/views.py` `DocumentViewSet.upload`);
* the persona (SystemPrompt) activation flow
  (`backend/api/views.py` `SystemPromptViewSet.activate`; the model class
   itself is not part of the sources, so its save-time invariant is
   modelled from the spec, see `savePrompt`);
* the retrieval confidence policy and citation assembly
  (`backend/rag/service.py` `RAGEngine.query`);
* Reciprocal Rank Fusion and the hybrid retriever
  (`backend/rag/hybrid_search.py`);
* scanned-PDF detection (`backend/rag/ocr.py` `is_pdf_scanned`);
* document deletion (`backend/api/views.py` `DocumentViewSet.destroy`,
  `backend/rag/service.py` `VectorStoreManager.delete_from_vector_store`);
* the preview route dispatch and both preview handlers
  (`backend/api/urls.py`, `backend/api/views.py`);
* the chat session resolution flow (`backend/api/views.py` `chat`).

Python strings are modelled as `String` (or `List Char` where character
level reasoning is needed), floating point scores and weights as exact
rationals, database tables as lists of records, and calls to external
collaborators (LLM, vector database scoring, BM25 scoring, the task queue)
as explicit parameters describing their outcome.
-/

/-! ## Common data model -/

/-- A citation record surfaced with a chat answer:
`{source, content, page}` as produced by `RAGEngine.query`. -/
structure Citation where
  source : String
  content : String
  page : Option Nat
deriving DecidableEq, Repr

/-- A LangChain-style document chunk: the payload text plus the metadata
fields the claims are about (`source`, `page`). -/
structure LCDoc where
  page_content : String
  source : String
  page : Option Nat
deriving DecidableEq, Repr

/-- `Document.IndexStatus` from `backend/api/models.py`. -/
inductive IndexStatus where
  | pending
  | processing
  | indexed
  | failed
deriving DecidableEq, Repr

/-- The `Document` database record from `backend/api/models.py`
(the fields the claims mention; timestamps elided). -/
structure DocumentRec where
  id : Nat
  user : Option Nat
  filename : String
  original_filename : String
  file_path : String
  file_size : Nat
  file_type : String
  index_status : IndexStatus
  chunk_count : Nat
  error_message : Option String
deriving DecidableEq, Repr

/-! ## Upload validation and upload flow (C3, C4) -/

/-- The upload allow-list hard-coded in
`DocumentUploadSerializer.validate_file` (`backend/api/serializers.py`,
line 81).  Note that it unconditionally contains the image extensions:
the serializer never consults the OCR availability flag nor
`settings.ALLOWED_UPLOAD_EXTENSIONS`. -/
def allowed_extensions : List String :=
  [".pdf", ".txt", ".md", ".png", ".jpg", ".jpeg", ".tiff", ".tif", ".bmp"]

/-- The allow-list as the spec words it for non-OCR deployments
("non-OCR deployments: `.pdf .txt .md`").  Kept separate from
`allowed_extensions` so the two can be compared; this definition follows
the spec, not the source. -/
def spec_non_ocr_allowed_extensions : List String := [".pdf", ".txt", ".md"]

/-- Maximum upload size, `50 * 1024 * 1024` bytes
(`backend/api/serializers.py`, line 90). -/
def max_size : Nat := 50 * 1024 * 1024

/-- Extension extraction as `validate_file` performs it:
`'.' + value.name.split('.')[-1].lower() if '.' in value.name else ''`.
The last `split('.')` segment is the part after the last dot, computed
here character-structurally. -/
def fileExt (name : String) : String :=
  if '.' ∈ name.data then
    String.mk
      ('.' :: ((name.data.reverse.takeWhile (fun c => c ≠ '.')).reverse.map
        Char.toLower))
  else ""

/-- `DocumentUploadSerializer.validate_file`: rejects an extension outside
`allowed_extensions`, then a size above `max_size`; otherwise accepts. -/
def validate_file (name : String) (size : Nat) : Except String Unit :=
  if fileExt name ∉ allowed_extensions then
    Except.error "File type not allowed."
  else if size > max_size then
    Except.error "File too large. Maximum size is 50MB."
  else
    Except.ok ()

/-- Whether a validation result is an acceptance. -/
def isAccepted (r : Except String Unit) : Bool :=
  match r with
  | Except.ok _ => true
  | Except.error _ => false

/-- Backend state touched by the upload flow: the files on disk and the
`Document` table, plus a counter standing in for the generated unique
(uuid) filenames. -/
structure BackendState where
  files : List String
  documents : List DocumentRec
  nextId : Nat
deriving DecidableEq, Repr

/-- The outcome of the indexing hand-off inside `DocumentViewSet.upload`:
either the Celery task was enqueued, or the queue was unavailable and the
synchronous fallback either produced `n` chunks or raised with an error
message. -/
inductive IndexOutcome where
  | queued
  | syncOk (chunkCount : Nat)
  | syncFail (err : String)
deriving DecidableEq, Repr

/-- `DocumentViewSet.upload` (`backend/api/views.py`, lines 74-136):
validate; on failure answer 400 touching nothing; on success write the
file under a generated name, create a `pending` record, then hand off to
the queue or to synchronous indexing, recording the result (or the error)
on the record.  The HTTP answer is always 201 once validation passed.
Returns the new state, the HTTP status, and the record sent back. -/
def uploadDocument (st : BackendState) (userId : Option Nat) (name : String)
    (size : Nat) (outcome : IndexOutcome) :
    BackendState × Nat × Option DocumentRec :=
  match validate_file name size with
  | Except.error _ => (st, 400, none)
  | Except.ok _ =>
    let ext := fileExt name
    let unique_filename := toString st.nextId ++ ext
    let file_path := "/data/" ++ unique_filename
    let doc : DocumentRec :=
      { id := st.nextId, user := userId, filename := unique_filename,
        original_filename := name, file_path := file_path, file_size := size,
        file_type := ext.drop 1, index_status := IndexStatus.pending,
        chunk_count := 0, error_message := none }
    let doc' :=
      match outcome with
      | IndexOutcome.queued => doc
      | IndexOutcome.syncOk n =>
          { doc with index_status := IndexStatus.indexed, chunk_count := n }
      | IndexOutcome.syncFail e =>
          { doc with index_status := IndexStatus.failed, error_message := some e }
    ({ files := st.files ++ [file_path],
       documents := st.documents ++ [doc'],
       nextId := st.nextId + 1 }, 201, some doc')

/-! ## Persona (SystemPrompt) activation (C1) -/

/-- The `SystemPrompt` record: owner (`none` for the global default
scope), name, content and active flag (timestamps elided). -/
structure SystemPrompt where
  id : Nat
  user : Option Nat
  name : String
  content : String
  is_active : Bool
deriving DecidableEq, Repr

/-- Modelled from the spec: the `SystemPrompt` model class (and with it
the overridden `save`) is not among the sources, only its callers are.
Spec 4.4: "saving a `SystemPrompt` with its active flag set must, within
the same transaction/update, deactivate every other prompt in the same
ownership scope (per-user if owned, else the no-owner/system scope)".
`savePrompt db p` writes `p` back into the table `db` (matching by id)
and, when `p.is_active`, deactivates every other prompt with the same
owner. -/
def savePrompt (db : List SystemPrompt) (p : SystemPrompt) : List SystemPrompt :=
  if p.is_active then
    db.map fun q =>
      if q.id = p.id then p
      else if q.user = p.user then { q with is_active := false }
      else q
  else
    db.map fun q => if q.id = p.id then p else q

/-- `SystemPromptViewSet.activate` (`backend/api/views.py`, lines
386-392): look the prompt up in the requester-filtered queryset, set
`is_active := true` and save it.  A missing prompt means a 404 and no
change. -/
def activatePrompt (db : List SystemPrompt) (userId : Option Nat) (pk : Nat) :
    List SystemPrompt :=
  match db.find? (fun q => q.id == pk && q.user == userId) with
  | none => db
  | some prompt => savePrompt db { prompt with is_active := true }

/-! ## Retrieval confidence policy (C2) -/

/-- The part of the result of `RAGEngine.query` the claims are about:
the citations, the narrative steps, and the suggested follow-up action
(the generated answer text comes from the external LLM and is omitted). -/
structure QueryOutcome where
  citations : List Citation
  steps : List String
  suggested_action : Option String
deriving DecidableEq, Repr

/-- The confidence-gating and citation-assembly logic of
`RAGEngine.query` (`backend/rag/service.py`, lines 541-633), as a
function of the retrieval results with their distance scores
(`docs_with_scores`, ordered as the vector store returns them;
`best_score` is the first entry).  Scores are modelled as exact
rationals; the score interpolation inside the step strings is elided.
If the list is empty or the first score exceeds 1.2 the suggested action
is `web_search`; the citations are always assembled from all retrieved
chunks (`source`, stripped content, `page`). -/
def ragQueryConfidence (dws : List (LCDoc × ℚ)) : QueryOutcome :=
  let citations := dws.map fun p =>
    { source := p.1.source, content := p.1.page_content.trim, page := p.1.page }
  match dws with
  | [] =>
    { citations := citations
      steps := ["Retrieving relevant documents...",
                "No relevant documents found...",
                "Using general knowledge/LLM only.",
                "Suggesting Web Search fallback to user..."]
      suggested_action := some "web_search" }
  | (_, best_score) :: _ =>
    if best_score > 1.2 then
      { citations := citations
        steps := ["Retrieving relevant documents...",
                  "Low relevance detected...",
                  "Answering based on weak matches as requested.",
                  "Suggesting Web Search fallback to user..."]
        suggested_action := some "web_search" }
    else
      { citations := citations
        steps := ["Retrieving relevant documents...",
                  "High relevance found...",
                  "Synthesizing answer from documents..."]
        suggested_action := none }

/-! ## Reciprocal Rank Fusion (C5) -/

/-- Default semantic weight (`create_hybrid_retriever` /
`RAGEngine.get_retriever` pass `semantic_weight=0.6`). -/
def semantic_weight : ℚ := 0.6

/-- Default keyword weight (`bm25_weight=0.4`). -/
def bm25_weight : ℚ := 0.4

/-- The RRF constant `rrf_k = 60` (`HybridRetriever.rrf_k`). -/
def rrf_k : Nat := 60

/-- One `rrf_scores[doc_id] += amt` step on the insertion-ordered score
table (Python `defaultdict(float)` keyed by the content hash; the hash is
modelled by the content itself). -/
def bumpScore : List (String × ℚ) → String → ℚ → List (String × ℚ)
  | [], id, amt => [(id, amt)]
  | (i, s) :: rest, id, amt =>
      if i = id then (i, s + amt) :: rest
      else (i, s) :: bumpScore rest id amt

/-- Read a score from the table, `0` when absent (defaultdict). -/
def lookupScore : List (String × ℚ) → String → ℚ
  | [], _ => 0
  | (i, s) :: rest, id => if i = id then s else lookupScore rest id

/-- One `enumerate(docs, start=rank)` pass of
`HybridRetriever._reciprocal_rank_fusion`: each document at 1-based rank
`r` contributes `w / (rrf_k + r)` to its score. -/
def addRanked (w : ℚ) : List LCDoc → Nat → List (String × ℚ) → List (String × ℚ)
  | [], _, scores => scores
  | d :: rest, rank, scores =>
      addRanked w rest (rank + 1)
        (bumpScore scores d.page_content (w / ((rrf_k : ℚ) + (rank : ℚ))))

/-- The full RRF score table of `_reciprocal_rank_fusion`
(`backend/rag/hybrid_search.py`, lines 141-173): the semantic pass with
weight `sw` followed by the BM25 pass with weight `bw`, both starting at
rank 1. -/
def rrfScoreTable (sw bw : ℚ) (semantic : List LCDoc) (bm : List (LCDoc × ℚ)) :
    List (String × ℚ) :=
  addRanked bw (bm.map Prod.fst) 1 (addRanked sw semantic 1 [])

/-- `doc_map[doc_id] = doc` (overwrite-or-append, semantic pass). -/
def setDocMap : List (String × LCDoc) → String → LCDoc → List (String × LCDoc)
  | [], id, d => [(id, d)]
  | (i, x) :: rest, id, d =>
      if i = id then (i, d) :: rest else (i, x) :: setDocMap rest id d

/-- The semantic `doc_map` pass of `_reciprocal_rank_fusion`. -/
def addDocsSet : List LCDoc → List (String × LCDoc) → List (String × LCDoc)
  | [], m => m
  | d :: rest, m => addDocsSet rest (setDocMap m d.page_content d)

/-- The BM25 `doc_map` pass: `if doc_id not in doc_map: doc_map[doc_id] = doc`. -/
def addDocsNew : List LCDoc → List (String × LCDoc) → List (String × LCDoc)
  | [], m => m
  | d :: rest, m =>
      if m.any (fun p => p.1 == d.page_content) then addDocsNew rest m
      else addDocsNew rest (m ++ [(d.page_content, d)])

/-- Lookup in the document map. -/
def lookupDoc (m : List (String × LCDoc)) (id : String) : Option LCDoc :=
  (m.find? (fun p => p.1 == id)).map Prod.snd

/-- `HybridRetriever._reciprocal_rank_fusion`: build the score table and
the document map, sort the entries by descending score (Python's stable
sort), take the top `k` and map back to documents. -/
def reciprocal_rank_fusion (sw bw : ℚ) (semantic : List LCDoc)
    (bm : List (LCDoc × ℚ)) (k : Nat) : List LCDoc :=
  let scores := rrfScoreTable sw bw semantic bm
  let docMap := addDocsNew (bm.map Prod.fst) (addDocsSet semantic [])
  let sorted := scores.mergeSort (fun a b => b.2 ≤ a.2)
  (sorted.take k).filterMap (fun p => lookupDoc docMap p.1)

/-- The rank of the document with content `c` in a list whose first
element has rank `r`, `none` when absent (specification vocabulary for
the RRF formula). -/
def rankFrom : List LCDoc → String → Nat → Option Nat
  | [], _, _ => none
  | d :: rest, c, r =>
      if d.page_content = c then some r else rankFrom rest c (r + 1)

/-- The 1-based rank of the document with content `c` in a list,
`none` when absent (specification vocabulary for the RRF formula). -/
def rankOf (docs : List LCDoc) (c : String) : Option Nat := rankFrom docs c 1

/-- One list's contribution to an RRF score: `w / (rrf_k + rank)` when
ranked, `0` when absent (specification vocabulary). -/
def rrfContrib (w : ℚ) : Option Nat → ℚ
  | some rank => w / ((rrf_k : ℚ) + (rank : ℚ))
  | none => 0

/-! ## BM25 index and hybrid retriever (C8) -/

/-- Python whitespace characters, as `str.split()` / `str.strip()` see
them (ASCII subset; space, tab, newline, carriage return, vertical tab,
form feed). -/
def isPyWhitespace (c : Char) : Bool :=
  c = ' ' ∨ c = '\t' ∨ c = '\n' ∨ c = '\r' ∨ c = Char.ofNat 11 ∨ c = Char.ofNat 12

/-- The `tokenize` helper of `backend/rag/hybrid_search.py`: lower-case,
replace every non-word non-whitespace character by a space, split on
whitespace and drop empty tokens (`\w` approximated by
alphanumeric-or-underscore). -/
def tokenize (text : String) : List String :=
  let cleaned := String.mk (text.toLower.data.map fun c =>
    if c.isAlphanum ∨ c = '_' ∨ isPyWhitespace c then c else ' ')
  (cleaned.split (fun c => isPyWhitespace c)).filter (fun t => t ≠ "")

/-- The `BM25Index` state: the accumulated documents, their tokenized
forms, and the fitted `BM25Okapi` model (`none` until `add_documents`
has run; the external model is represented by its scoring function,
query tokens to per-corpus-entry scores). -/
structure BM25Index where
  documents : List LCDoc
  tokenized_corpus : List (List String)
  bm25 : Option (List String → List ℚ)

/-- A freshly constructed `BM25Index()` with no documents added:
`bm25` is `None`. -/
def BM25Index.emptyIdx : BM25Index :=
  { documents := [], tokenized_corpus := [], bm25 := none }

/-- `BM25Index.search` (`backend/rag/hybrid_search.py`, lines 93-114):
with no fitted model the result is `[]`; otherwise score the corpus,
pair scores with documents, sort by descending score (stable) and take
the first `k`. -/
def BM25Index.search (idx : BM25Index) (query : String) (k : Nat) :
    List (LCDoc × ℚ) :=
  match idx.bm25 with
  | none => []
  | some scorer =>
      let scores := scorer (tokenize query)
      let doc_scores := idx.documents.zip scores
      (doc_scores.mergeSort (fun a b => b.2 ≤ a.2)).take k

/-- The body of `HybridRetriever._get_relevant_documents`
(`backend/rag/hybrid_search.py`, lines 175-198) factored over the result
count `k` (the method itself fixes `k := 5`): fetch `2*k` semantic
results and `2*k` keyword results; with no keyword results fall back to
the first `k` semantic results, otherwise fuse. -/
def hybridRetrieveK (k : Nat) (vector_retriever : String → List LCDoc)
    (idx : BM25Index) (sw bw : ℚ) (query : String) : List LCDoc :=
  let fetch_k := k * 2
  let semantic_docs := (vector_retriever query).take fetch_k
  let bm25_results := idx.search query fetch_k
  if bm25_results.isEmpty then semantic_docs.take k
  else reciprocal_rank_fusion sw bw semantic_docs bm25_results k

/-- `HybridRetriever._get_relevant_documents` with the hard-coded
`k = 5` of the source. -/
def hybrid_get_relevant_documents (vector_retriever : String → List LCDoc)
    (idx : BM25Index) (sw bw : ℚ) (query : String) : List LCDoc :=
  hybridRetrieveK 5 vector_retriever idx sw bw query

/-! ## Scanned-PDF detection (C6) -/

/-- Length of `text.strip()` over a page text given as characters. -/
def stripLen (s : List Char) : Nat :=
  ((s.dropWhile isPyWhitespace).reverse.dropWhile isPyWhitespace).length

/-- The page loop of `is_pdf_scanned`: accumulate page text; as soon as
the stripped accumulation exceeds 100 characters answer `false`
(native text); after the loop answer whether the stripped total is
under 50 characters. -/
def isPdfScannedLoop : List Char → List (List Char) → Bool
  | acc, [] => stripLen acc < 50
  | acc, p :: rest =>
      let acc' := acc ++ p
      if stripLen acc' > 100 then false else isPdfScannedLoop acc' rest

/-- `is_pdf_scanned` (`backend/rag/ocr.py`, lines 74-97) on the
extracted text of the PDF's pages (each page the text that
`page.extract_text() or ""` yields): only the first 3 pages are
examined. -/
def is_pdf_scanned (pages : List (List Char)) : Bool :=
  isPdfScannedLoop [] (pages.take 3)

/-- `is_pdf_scanned` including its exception handler: any extraction
error makes it answer `true` (needs OCR). -/
def is_pdf_scanned_result (r : Except String (List (List Char))) : Bool :=
  match r with
  | Except.error _ => true
  | Except.ok pages => is_pdf_scanned pages

/-! ## Document deletion (C7) -/

/-- A stored vector's metadata relevant to deletion: the two keys
`delete_from_vector_store` matches on. -/
structure VecRec where
  file_path : String
  source : String
deriving DecidableEq, Repr

/-- Combined persistent state for the deletion flow: vector store,
files on disk, `Document` table. -/
structure StoreState where
  vectors : List VecRec
  files : List String
  documents : List DocumentRec
deriving DecidableEq, Repr

/-- `VectorStoreManager.delete_from_vector_store`
(`backend/rag/service.py`, lines 319-329): delete every vector whose
`file_path` matches, then every vector whose `source` matches; any error
from the vector database is caught and logged (`raisesErr` models the
collection call raising, in which case nothing is removed). -/
def delete_from_vector_store (vectors : List VecRec) (fp : String)
    (raisesErr : Bool) : List VecRec :=
  if raisesErr then vectors
  else
    ((vectors.filter (fun v => v.file_path ≠ fp)).filter
      (fun v => v.source ≠ fp))

/-- `DocumentViewSet.destroy` (`backend/api/views.py`, lines 190-213):
look the record up in the requester-filtered queryset (404 when absent);
delete its vectors (tolerant of errors and of absence), unlink the file
(`fileRaises` models `unlink` raising, caught by the surrounding
handler), and in every case delete the database record.  Returns the new
state and the HTTP status. -/
def destroyDocument (st : StoreState) (userId : Option Nat) (pk : Nat)
    (vecRaises fileRaises : Bool) : StoreState × Nat :=
  match st.documents.find? (fun d => d.id == pk && d.user == userId) with
  | none => (st, 404)
  | some doc =>
      let vectors1 := delete_from_vector_store st.vectors doc.file_path vecRaises
      let files1 :=
        if fileRaises then st.files
        else st.files.filter (fun f => f ≠ doc.file_path)
      let docs1 := st.documents.filter (fun d => d.id ≠ pk)
      ({ vectors := vectors1, files := files1, documents := docs1 }, 204)

/-! ## Preview route and handlers (C9) -/

/-- The two handlers registered for `documents/<pk>/preview/`:
the router-generated `DocumentViewSet.preview` action and the explicit
`preview_document` function view. -/
inductive PreviewHandler where
  | viewsetPreview
  | previewDocumentView
deriving DecidableEq, Repr

/-- URL resolution for `/api/documents/<pkSeg>/preview/`
(`backend/api/urls.py`): Django tries the patterns in order.  The router
include comes first and its detail-action pattern accepts any non-empty
`pk` segment without `/` or `.`; the explicit
`documents/<int:pk>/preview/` path (line 44) accepts a non-empty digit
segment but is only reached if the router pattern did not match.
`routerPkOk` is the router's `[^/.]` character class. -/
def routerPkOk (c : Char) : Bool := !(c == '/') && !(c == '.')

/-- URL resolution for the preview path, router include first. -/
def dispatchPreview (pkSeg : String) : Option PreviewHandler :=
  if pkSeg.data ≠ [] ∧ pkSeg.data.all routerPkOk = true then
    some PreviewHandler.viewsetPreview
  else if pkSeg.data ≠ [] ∧ pkSeg.data.all Char.isDigit = true then
    some PreviewHandler.previewDocumentView
  else none

/-- Whether `s` ends with `ext` (character-structural suffix test). -/
def dotSuffixEq (s : String) (ext : String) : Bool :=
  s.data.reverse.take ext.data.length = ext.data.reverse

/-- Python's `mimetypes.guess_type` restricted to the stored file kinds
(the standard MIME table: `.md` maps to `text/markdown`, not
`text/plain`). -/
def guess_type_std (path : String) : Option String :=
  if dotSuffixEq path ".pdf" then some "application/pdf"
  else if dotSuffixEq path ".txt" then some "text/plain"
  else if dotSuffixEq path ".md" then some "text/markdown"
  else none

/-- The preview response: HTTP status and, for a file response, its
content type. -/
structure PreviewResponse where
  status : Nat
  content_type : Option String
deriving DecidableEq, Repr

/-- `DocumentViewSet.preview` (`backend/api/views.py`, lines 149-162):
`get_object` against the requester-filtered queryset (404 when absent),
404 when the file is missing on disk, otherwise stream the file with the
`mimetypes`-guessed content type, defaulting to
`application/octet-stream`. -/
def viewset_preview (documents : List DocumentRec) (files : List String)
    (guess : String → Option String) (userId : Option Nat) (pk : Nat) :
    PreviewResponse :=
  match documents.find? (fun d => d.id == pk && d.user == userId) with
  | none => { status := 404, content_type := none }
  | some doc =>
      if doc.file_path ∈ files then
        { status := 200,
          content_type := some ((guess doc.file_path).getD "application/octet-stream") }
      else { status := 404, content_type := none }

/-- The function view `preview_document` (`backend/api/views.py`, lines
344-361): ownership-checked lookup (404 when absent), 404 when the file
is missing, content type `text/plain` for `txt`/`md` records and
`application/pdf` otherwise. -/
def preview_document_view (documents : List DocumentRec) (files : List String)
    (userId : Option Nat) (pk : Nat) : PreviewResponse :=
  match documents.find? (fun d => d.id == pk && d.user == userId) with
  | none => { status := 404, content_type := none }
  | some doc =>
      if doc.file_path ∈ files then
        { status := 200,
          content_type := some
            (if doc.file_type = "txt" ∨ doc.file_type = "md" then "text/plain"
             else "application/pdf") }
      else { status := 404, content_type := none }

/-! ## Chat session resolution (C10) -/

/-- A `ChatSession` record (timestamps elided). -/
structure ChatSessionRec where
  id : Nat
  user : Option Nat
  title : String
deriving DecidableEq, Repr

/-- A `ChatMessage` record (timestamp elided; creation order is list
order). -/
structure ChatMessageRec where
  session : Nat
  role : String
  content : String
  citations : List Citation
deriving DecidableEq, Repr

/-- Persistent chat state: the session and message tables plus a counter
standing in for the database's generated session ids. -/
structure ChatState where
  sessions : List ChatSessionRec
  messages : List ChatMessageRec
  nextSessionId : Nat
deriving DecidableEq, Repr

/-- The payload the `chat` view returns. -/
structure ChatResult where
  response : String
  citations : List Citation
  session_id : Nat
deriving DecidableEq, Repr

/-- Session resolution inside the `chat` view: a supplied `session_id`
is looked up among the requester's own sessions
(`ChatSession.objects.get(id=session_id, user=request.user)`); a miss —
nonexistent id or another user's session — and a missing `session_id`
both create a fresh session owned by the requester.  Returns the
resolved session, the updated session table, and the next fresh id. -/
def resolveSession (st : ChatState) (userId : Option Nat) :
    Option Nat → ChatSessionRec × List ChatSessionRec × Nat
  | none =>
      (⟨st.nextSessionId, userId, "New Chat"⟩,
       st.sessions ++ [⟨st.nextSessionId, userId, "New Chat"⟩],
       st.nextSessionId + 1)
  | some sid =>
      match st.sessions.find? (fun s => s.id == sid && s.user == userId) with
      | some s => (s, st.sessions, st.nextSessionId)
      | none =>
          (⟨st.nextSessionId, userId, "New Chat"⟩,
           st.sessions ++ [⟨st.nextSessionId, userId, "New Chat"⟩],
           st.nextSessionId + 1)

/-- The auto-title step of the `chat` view: a session still titled
"New Chat" gets its title from the user message, truncated to 50
characters with an ellipsis when longer. -/
def chatTitle (old : String) (message : String) : String :=
  if old = "New Chat" then
    message.take 50 ++ (if message.length > 50 then "..." else "")
  else old

/-- The engine call of the `chat` view with its error handler: a raised
error becomes the apology string with empty citations. -/
def chatAnswer (engine : Except String (String × List Citation)) :
    String × List Citation :=
  match engine with
  | Except.ok rc => rc
  | Except.error e => ("I encountered an error: " ++ e, [])

/-- The `chat` view (`backend/api/views.py`, lines 249-341), with the
engine call abstracted into its outcome (`Except`: an answer with
citations, or a raised error turned into the apology string).  Session
resolution: a supplied `session_id` is looked up in the requester's own
sessions; a miss (nonexistent id or another user's session) silently
creates a fresh session owned by the requester, exactly as a missing
`session_id` does.  The user and assistant messages are persisted to the
resolved session, the title is derived from the first message when it is
still "New Chat" (`chatTitle`), and the session id is returned. -/
def chatView (st : ChatState) (userId : Option Nat) (message : String)
    (session_id : Option Nat)
    (engine : Except String (String × List Citation)) :
    ChatState × ChatResult :=
  ({ sessions := (resolveSession st userId session_id).2.1.map fun s =>
       if s.id = (resolveSession st userId session_id).1.id then
         { s with title :=
             chatTitle (resolveSession st userId session_id).1.title message }
       else s,
     messages := st.messages ++
       [⟨(resolveSession st userId session_id).1.id, "user", message, []⟩,
        ⟨(resolveSession st userId session_id).1.id, "assistant",
          (chatAnswer engine).1, (chatAnswer engine).2⟩],
     nextSessionId := (resolveSession st userId session_id).2.2 },
   { response := (chatAnswer engine).1, citations := (chatAnswer engine).2,
     session_id := (resolveSession st userId session_id).1.id })

/-! ## Claim theorems -/

/-- C3, counterexample.  The claim says a non-OCR deployment's allow-list
is `.pdf .txt .md` only, so an image upload would be rejected there.  The
validator, however, accepts `.png` unconditionally — `validate_file`
takes no OCR flag at all and its allow-list always contains the image
extensions — and the upload then proceeds to 201, creating a record. -/
theorem c3_counterexample :
    fileExt "scan.png" ∉ spec_non_ocr_allowed_extensions ∧
    isAccepted (validate_file "scan.png" 100) = true ∧
    (uploadDocument ⟨[], [], 0⟩ (some 1) "scan.png" 100 IndexOutcome.queued).2.1
      = 201 := by
  decide

/-- C3, amended: an upload is rejected — with a validation error, no
`Document` record and no on-disk file — exactly when its extension is
outside the fixed allow-list `.pdf .txt .md .png .jpg .jpeg .tiff .tif
.bmp` (the same list in every deployment, OCR or not) or its size
exceeds 50 MiB. -/
theorem c3_upload_validation (name : String) (size : Nat) :
    (isAccepted (validate_file name size) = true ↔
      (fileExt name ∈ allowed_extensions ∧ size ≤ max_size)) ∧
    (isAccepted (validate_file name size) = false →
      ∀ (st : BackendState) (uid : Option Nat) (oc : IndexOutcome),
        uploadDocument st uid name size oc = (st, 400, none)) := by
  constructor
  · by_cases h1 : fileExt name ∈ allowed_extensions <;>
      by_cases h2 : size > max_size <;>
      simp [isAccepted, validate_file, h1, h2] <;> omega
  · intro hrej st uid oc
    unfold uploadDocument
    cases hv : validate_file name size with
    | error e => simp
    | ok u =>
        cases u
        rw [hv] at hrej
        simp [isAccepted] at hrej

/-- C3 witness: a `.exe` upload is rejected and leaves the state
untouched. -/
theorem c3_upload_validation_witness :
    isAccepted (validate_file "x.exe" 10) = false ∧
    uploadDocument ⟨[], [], 0⟩ (some 1) "x.exe" 10 IndexOutcome.queued
      = (⟨[], [], 0⟩, 400, none) :=
  ⟨by decide,
   (c3_upload_validation "x.exe" 10).2 (by decide) ⟨[], [], 0⟩ (some 1)
     IndexOutcome.queued⟩

/-- C4: every valid upload is answered 201 with the created record, even
when the queue is unavailable and synchronous indexing raises; the
failure is recorded only on the record (`failed` with the error text),
a success as `indexed` with the chunk count, and a queued hand-off leaves
it `pending`. -/
theorem c4_upload_always_201 (st : BackendState) (uid : Option Nat)
    (name : String) (size : Nat) (oc : IndexOutcome)
    (hv : isAccepted (validate_file name size) = true) :
    (uploadDocument st uid name size oc).2.1 = 201 ∧
    ∃ d, (uploadDocument st uid name size oc).2.2 = some d ∧
      (∀ e, oc = IndexOutcome.syncFail e →
        d.index_status = IndexStatus.failed ∧ d.error_message = some e) ∧
      (∀ n, oc = IndexOutcome.syncOk n →
        d.index_status = IndexStatus.indexed ∧ d.chunk_count = n) ∧
      (oc = IndexOutcome.queued → d.index_status = IndexStatus.pending) := by
  unfold uploadDocument
  cases hval : validate_file name size with
  | error e => rw [hval] at hv; simp [isAccepted] at hv
  | ok u => cases oc <;> simp

/-- C4 witness: a failing synchronous indexing still yields 201, with the
failure on the record. -/
theorem c4_upload_always_201_witness :
    isAccepted (validate_file "a.txt" 3) = true ∧
    ((uploadDocument ⟨[], [], 0⟩ (some 1) "a.txt" 3
        (IndexOutcome.syncFail "boom")).2.1 = 201 ∧
      ∃ d, (uploadDocument ⟨[], [], 0⟩ (some 1) "a.txt" 3
            (IndexOutcome.syncFail "boom")).2.2 = some d ∧
        (∀ e, IndexOutcome.syncFail "boom" = IndexOutcome.syncFail e →
          d.index_status = IndexStatus.failed ∧ d.error_message = some e) ∧
        (∀ n, IndexOutcome.syncFail "boom" = IndexOutcome.syncOk n →
          d.index_status = IndexStatus.indexed ∧ d.chunk_count = n) ∧
        (IndexOutcome.syncFail "boom" = IndexOutcome.queued →
          d.index_status = IndexStatus.pending)) :=
  ⟨by decide,
   c4_upload_always_201 ⟨[], [], 0⟩ (some 1) "a.txt" 3
     (IndexOutcome.syncFail "boom") (by decide)⟩

/-- C8: with an empty keyword index (no documents added, so the BM25
search yields nothing), the hybrid retriever returns exactly the first
`k` semantic results, unmodified and without fusion — for the `k` the
body is factored over as well as for the hard-coded `k = 5` of the
method. -/
theorem c8_empty_index_fallback (k : Nat) (vr : String → List LCDoc)
    (q : String) (sw bw : ℚ) :
    BM25Index.emptyIdx.search q (k * 2) = [] ∧
    hybridRetrieveK k vr BM25Index.emptyIdx sw bw q = (vr q).take k ∧
    hybrid_get_relevant_documents vr BM25Index.emptyIdx sw bw q
      = (vr q).take 5 := by
  refine ⟨rfl, ?_, ?_⟩
  · unfold hybridRetrieveK
    show ((vr q).take (k * 2)).take k = (vr q).take k
    rw [List.take_take, Nat.min_eq_left (by omega)]
  · unfold hybrid_get_relevant_documents hybridRetrieveK
    show ((vr q).take (5 * 2)).take 5 = (vr q).take 5
    rw [List.take_take]
    norm_num

/-- C7: deleting an owned document removes every vector keyed by its
file path (under both metadata keys, tolerating their absence), removes
the on-disk file, and removes the database record; and the record is
removed even when the vector deletion or the file unlink raises. -/
theorem c7_destroy_cleanup (st : StoreState) (uid : Option Nat) (pk : Nat)
    (doc : DocumentRec) (vecRaises fileRaises : Bool)
    (hfind : st.documents.find? (fun d => d.id == pk && d.user == uid)
      = some doc) :
    ((destroyDocument st uid pk vecRaises fileRaises).2 = 204 ∧
      ∀ d ∈ (destroyDocument st uid pk vecRaises fileRaises).1.documents,
        d.id ≠ pk) ∧
    (vecRaises = false →
      ∀ v ∈ (destroyDocument st uid pk vecRaises fileRaises).1.vectors,
        v.file_path ≠ doc.file_path ∧ v.source ≠ doc.file_path) ∧
    (fileRaises = false →
      doc.file_path ∉ (destroyDocument st uid pk vecRaises fileRaises).1.files)
    := by
  unfold destroyDocument
  rw [hfind]
  refine ⟨⟨rfl, ?_⟩, ?_, ?_⟩
  · intro d hd
    simp only [List.mem_filter, decide_eq_true_eq] at hd
    exact hd.2
  · intro hvr v hv
    rw [hvr] at hv
    unfold delete_from_vector_store at hv
    simp only [if_neg Bool.false_ne_true, List.mem_filter, decide_eq_true_eq] at hv
    exact ⟨hv.1.2, hv.2⟩
  · intro hfr hmem
    rw [hfr] at hmem
    simp only [if_neg Bool.false_ne_true, List.mem_filter, decide_eq_true_eq] at hmem
    exact hmem.2 rfl

/-- C7 witness: a concrete deletion removing vectors (both keys), the
file, and the record. -/
theorem c7_destroy_cleanup_witness :
    ([(⟨5, some 1, "f", "o", "/p", 1, "pdf", IndexStatus.indexed, 1, none⟩ :
        DocumentRec)].find? (fun d => d.id == 5 && d.user == some 1)
      = some ⟨5, some 1, "f", "o", "/p", 1, "pdf", IndexStatus.indexed, 1, none⟩) ∧
    ((destroyDocument ⟨[⟨"/p", "s"⟩, ⟨"/q", "/p"⟩], ["/p"],
        [⟨5, some 1, "f", "o", "/p", 1, "pdf", IndexStatus.indexed, 1, none⟩]⟩
        (some 1) 5 false false).2 = 204 ∧
      ∀ d ∈ (destroyDocument ⟨[⟨"/p", "s"⟩, ⟨"/q", "/p"⟩], ["/p"],
          [⟨5, some 1, "f", "o", "/p", 1, "pdf", IndexStatus.indexed, 1, none⟩]⟩
          (some 1) 5 false false).1.documents, d.id ≠ 5) :=
  ⟨by decide,
   (c7_destroy_cleanup ⟨[⟨"/p", "s"⟩, ⟨"/q", "/p"⟩], ["/p"],
       [⟨5, some 1, "f", "o", "/p", 1, "pdf", IndexStatus.indexed, 1, none⟩]⟩
       (some 1) 5 ⟨5, some 1, "f", "o", "/p", 1, "pdf", IndexStatus.indexed, 1, none⟩
       false false (by decide)).1⟩

/-- C2: in the grounded query, if retrieval returned nothing or the best
(lowest) distance exceeds 1.2 the suggested action is `web_search`; if
the best distance is at most 1.2 no action is suggested (in particular
not `web_search`); and in both cases the citations are exactly the
retrieved chunks (source name, stripped content, page), independent of
the confidence outcome.  The sortedness hypothesis states that the
vector store returns results by ascending distance, so the first score
the code reads is the best one. -/
theorem c2_confidence_and_citations (dws : List (LCDoc × ℚ))
    (hsorted : dws.Pairwise (fun a b => a.2 ≤ b.2)) :
    ((dws = [] ∨ ∃ p ∈ dws, (∀ q ∈ dws, p.2 ≤ q.2) ∧ p.2 > 1.2) →
      (ragQueryConfidence dws).suggested_action = some "web_search") ∧
    ((∃ p ∈ dws, (∀ q ∈ dws, p.2 ≤ q.2) ∧ p.2 ≤ 1.2) →
      (ragQueryConfidence dws).suggested_action = none) ∧
    (ragQueryConfidence dws).citations =
      dws.map (fun p => ⟨p.1.source, p.1.page_content.trim, p.1.page⟩) := by
  cases dws with
  | nil =>
      refine ⟨fun _ => rfl, ?_, rfl⟩
      rintro ⟨p, hp, -⟩
      cases hp
  | cons hd tl =>
      obtain ⟨d, s⟩ := hd
      have hmin : ∀ p, p ∈ (d, s) :: tl → (∀ q ∈ (d, s) :: tl, p.2 ≤ q.2) →
          p.2 = s := by
        intro p hp hple
        rcases List.mem_cons.mp hp with h | h
        · rw [h]
        · exact le_antisymm (hple _ (List.mem_cons_self _ _))
            ((List.pairwise_cons.mp hsorted).1 p h)
      refine ⟨?_, ?_, ?_⟩
      · rintro (h | ⟨p, hp, hple, hgt⟩)
        · cases h
        · have hgt' : s > 1.2 := by rw [← hmin p hp hple]; exact hgt
          simp [ragQueryConfidence, if_pos hgt']
      · rintro ⟨p, hp, hple, hle⟩
        have hs : s ≤ 1.2 := by rw [← hmin p hp hple]; exact hle
        simp [ragQueryConfidence, if_neg (not_lt.mpr hs)]
      · by_cases h : s > 1.2 <;> simp [ragQueryConfidence, h]

/-- C2 witness: a single retrieved chunk at distance 2 (sorted trivially,
minimal, above 1.2) triggers the `web_search` suggestion. -/
theorem c2_witness :
    ([((⟨"hello", "notes.txt", some 1⟩ : LCDoc), (2 : ℚ))].Pairwise
        (fun a b => a.2 ≤ b.2)) ∧
    (ragQueryConfidence [(⟨"hello", "notes.txt", some 1⟩, (2 : ℚ))]).suggested_action
      = some "web_search" :=
  ⟨List.pairwise_singleton _ _,
   (c2_confidence_and_citations [(⟨"hello", "notes.txt", some 1⟩, (2 : ℚ))]
      (List.pairwise_singleton _ _)).1
     (Or.inr ⟨(⟨"hello", "notes.txt", some 1⟩, (2 : ℚ)),
       List.mem_singleton_self _,
       by rintro q hq; rw [List.mem_singleton.mp hq],
       by norm_num⟩)⟩

/-- C9, counterexample.  A request for `documents/7/preview/` is resolved
to the router-generated `DocumentViewSet.preview` action (the explicit
`preview_document` path the spec describes is shadowed), and that action
serves an owned markdown document with the MIME-guessed content type
`text/markdown`, not the claimed `text/plain`. -/
theorem c9_counterexample :
    dispatchPreview "7" = some PreviewHandler.viewsetPreview ∧
    (viewset_preview
        [⟨7, some 1, "7.md", "notes.md", "/data/7.md", 10, "md",
          IndexStatus.indexed, 1, none⟩]
        ["/data/7.md"] guess_type_std (some 1) 7).content_type
      = some "text/markdown" ∧
    (some "text/markdown" : Option String) ≠ some "text/plain" := by
  decide

/-- C9, amended: the preview route is served by the viewset's preview
action — any non-empty digit id matches the router pattern first — which
verifies ownership through the requester-filtered queryset (404 on
failure), answers 404 when the file is missing on disk, and otherwise
streams the file with the content type guessed from the file name by the
platform MIME table (`application/pdf` for `.pdf`, `text/plain` for
`.txt`, `text/markdown` for `.md`), defaulting to
`application/octet-stream`. -/
theorem c9_preview_dispatch_and_handler (documents : List DocumentRec)
    (files : List String) (uid : Option Nat) (pk : Nat) (pkSeg : String) :
    (pkSeg.data ≠ [] → pkSeg.data.all Char.isDigit = true →
      dispatchPreview pkSeg = some PreviewHandler.viewsetPreview) ∧
    (documents.find? (fun d => d.id == pk && d.user == uid) = none →
      viewset_preview documents files guess_type_std uid pk = ⟨404, none⟩) ∧
    (∀ doc, documents.find? (fun d => d.id == pk && d.user == uid) = some doc →
      (doc.file_path ∉ files →
        viewset_preview documents files guess_type_std uid pk = ⟨404, none⟩) ∧
      (doc.file_path ∈ files →
        viewset_preview documents files guess_type_std uid pk =
          ⟨200, some ((guess_type_std doc.file_path).getD
            "application/octet-stream")⟩)) := by
  refine ⟨?_, ?_, ?_⟩
  · intro hne hdig
    have hall : pkSeg.data.all routerPkOk = true := by
      rw [List.all_eq_true] at hdig ⊢
      intro c hc
      have hd := hdig c hc
      by_cases h1 : c = '/'
      · rw [h1] at hd; exact absurd hd (by decide)
      · by_cases h2 : c = '.'
        · rw [h2] at hd; exact absurd hd (by decide)
        · simp [routerPkOk, h1, h2]
    unfold dispatchPreview
    rw [if_pos ⟨hne, hall⟩]
  · intro hnone
    unfold viewset_preview
    rw [hnone]
  · intro doc hsome
    constructor
    · intro hnf
      simp [viewset_preview, hsome, hnf]
    · intro hf
      simp [viewset_preview, hsome, hf]

/-- C9 witness: the amended behavior at a concrete owned `.md` document
whose file is present. -/
theorem c9_preview_witness :
    (("7" : String).data ≠ [] ∧ ("7" : String).data.all Char.isDigit = true ∧
      dispatchPreview "7" = some PreviewHandler.viewsetPreview) ∧
    (([⟨7, some 1, "7.md", "notes.md", "/data/7.md", 10, "md",
        IndexStatus.indexed, 1, none⟩] :
        List DocumentRec).find? (fun d => d.id == 7 && d.user == some 1)
      = some ⟨7, some 1, "7.md", "notes.md", "/data/7.md", 10, "md",
          IndexStatus.indexed, 1, none⟩) ∧
    viewset_preview
        [⟨7, some 1, "7.md", "notes.md", "/data/7.md", 10, "md",
          IndexStatus.indexed, 1, none⟩]
        ["/data/7.md"] guess_type_std (some 1) 7 =
      ⟨200, some ((guess_type_std "/data/7.md").getD
        "application/octet-stream")⟩ :=
  ⟨⟨by decide, by decide,
    (c9_preview_dispatch_and_handler
        [⟨7, some 1, "7.md", "notes.md", "/data/7.md", 10, "md",
          IndexStatus.indexed, 1, none⟩]
        ["/data/7.md"] (some 1) 7 "7").1 (by decide) (by decide)⟩,
   by decide,
   ((c9_preview_dispatch_and_handler
        [⟨7, some 1, "7.md", "notes.md", "/data/7.md", 10, "md",
          IndexStatus.indexed, 1, none⟩]
        ["/data/7.md"] (some 1) 7 "7").2.2
      ⟨7, some 1, "7.md", "notes.md", "/data/7.md", 10, "md",
        IndexStatus.indexed, 1, none⟩ (by decide)).2 (by decide)⟩

/-- C10: a chat request whose `session_id` does not identify a session
owned by the requester (nonexistent, or another user's) silently creates
a fresh session owned by the requester, persists the user/assistant
exchange into that fresh session only, returns the new session's id, and
leaves every preexisting session untouched — it never fails with a
not-found error. -/
theorem c10_chat_session_fallback (st : ChatState) (uid : Option Nat)
    (message : String) (sid : Nat)
    (engine : Except String (String × List Citation))
    (hmiss : st.sessions.find? (fun s => s.id == sid && s.user == uid) = none)
    (hfresh : ∀ s ∈ st.sessions, s.id ≠ st.nextSessionId) :
    (chatView st uid message (some sid) engine).2.session_id
      = st.nextSessionId ∧
    (chatView st uid message (some sid) engine).1.sessions =
      st.sessions ++
        [⟨st.nextSessionId, uid,
          message.take 50 ++ (if message.length > 50 then "..." else "")⟩] ∧
    ∃ resp cits,
      (chatView st uid message (some sid) engine).1.messages =
        st.messages ++
          [⟨st.nextSessionId, "user", message, []⟩,
           ⟨st.nextSessionId, "assistant", resp, cits⟩] := by
  have hres : resolveSession st uid (some sid) =
      (⟨st.nextSessionId, uid, "New Chat"⟩,
       st.sessions ++ [⟨st.nextSessionId, uid, "New Chat"⟩],
       st.nextSessionId + 1) := by
    simp only [resolveSession, hmiss]
  unfold chatView
  rw [hres]
  refine ⟨rfl, ?_, ?_⟩
  · show (st.sessions ++
        [(⟨st.nextSessionId, uid, "New Chat"⟩ : ChatSessionRec)]).map _ = _
    rw [List.map_append]
    congr 1
    · calc st.sessions.map _ = st.sessions.map id :=
          List.map_congr_left (fun s hs => by
            simp only [id_eq]
            rw [if_neg (hfresh s hs)])
        _ = st.sessions := List.map_id _
    · simp [chatTitle]
  · exact ⟨(chatAnswer engine).1, (chatAnswer engine).2, rfl⟩

/-- C10 witness: a requester supplies another user's session id; a fresh
session is created for them and the exchange lands there. -/
theorem c10_chat_session_fallback_witness :
    (([⟨7, some 2, "Hi"⟩] : List ChatSessionRec).find?
        (fun s => s.id == 7 && s.user == some 1) = none) ∧
    (chatView ⟨[⟨7, some 2, "Hi"⟩], [], 8⟩ (some 1) "hello" (some 7)
        (Except.ok ("answer", []))).2.session_id = 8 ∧
    (chatView ⟨[⟨7, some 2, "Hi"⟩], [], 8⟩ (some 1) "hello" (some 7)
        (Except.ok ("answer", []))).1.sessions =
      [⟨7, some 2, "Hi"⟩] ++
        [⟨8, some 1,
          ("hello" : String).take 50 ++
            (if ("hello" : String).length > 50 then "..." else "")⟩] :=
  ⟨by decide,
   (c10_chat_session_fallback ⟨[⟨7, some 2, "Hi"⟩], [], 8⟩ (some 1) "hello" 7
      (Except.ok ("answer", [])) (by decide) (by decide)).1,
   (c10_chat_session_fallback ⟨[⟨7, some 2, "Hi"⟩], [], 8⟩ (some 1) "hello" 7
      (Except.ok ("answer", [])) (by decide) (by decide)).2.1⟩

/-! ## C6: scanned-PDF detection -/

/-- Dropping a leading-whitespace filter from a longer list never
shortens the result below what the tail alone yields. -/
theorem length_dropWhile_append_ge (w : Char → Bool) (y z : List Char) :
    (z.dropWhile w).length ≤ ((y ++ z).dropWhile w).length := by
  induction y with
  | nil => simp
  | cons c y ih =>
      by_cases h : w c
      · rw [List.cons_append, List.dropWhile_cons, if_pos h]
        exact ih
      · rw [List.cons_append, List.dropWhile_cons, if_neg h]
        have h1 : (z.dropWhile w).length ≤ z.length :=
          List.Sublist.length_le (List.dropWhile_sublist ..)
        simp only [List.length_cons, List.length_append]
        omega

/-- Appending text never decreases the length of the stripped text. -/
theorem stripLen_le_append (a b : List Char) :
    stripLen a ≤ stripLen (a ++ b) := by
  unfold stripLen
  rw [List.dropWhile_append]
  by_cases h : (a.dropWhile isPyWhitespace).isEmpty
  · rw [if_pos h]
    have ha : a.dropWhile isPyWhitespace = [] := by
      rwa [List.isEmpty_iff] at h
    rw [ha]
    simp
  · rw [if_neg h, List.reverse_append]
    exact length_dropWhile_append_ge _ _ _

/-- The page loop of `is_pdf_scanned` answers `true` exactly when the
stripped length of everything it would accumulate stays under 50 (the
early exit can only fire when the total is at least 100, which the
monotonicity of `stripLen` turns into a contradiction with `< 50`). -/
theorem isPdfScannedLoop_iff (ps : List (List Char)) (acc : List Char) :
    isPdfScannedLoop acc ps = true ↔ stripLen (acc ++ ps.flatten) < 50 := by
  induction ps generalizing acc with
  | nil =>
      simp [isPdfScannedLoop]
  | cons p rest ih =>
      simp only [isPdfScannedLoop, List.flatten_cons]
      by_cases h : stripLen (acc ++ p) > 100
      · rw [if_pos h]
        constructor
        · intro hft
          exact absurd hft (by simp)
        · intro hlt
          exfalso
          have hle := stripLen_le_append (acc ++ p) rest.flatten
          rw [List.append_assoc] at hle
          omega
      · rw [if_neg h, ih, ← List.append_assoc]

/-- The examined prefix never strips to more than the whole. -/
theorem stripLen_take_flatten_le (l : List (List Char)) (n : Nat) :
    stripLen ((l.take n).flatten) ≤ stripLen l.flatten := by
  conv_rhs => rw [← List.take_append_drop n l]
  rw [List.flatten_append]
  exact stripLen_le_append _ _

/-- C6: scanned-PDF detection classifies the PDF from the first 3 pages
only: it answers scanned exactly when the stripped total of those pages
is under 50 characters; whenever the stripped accumulation exceeds 100
at any point the answer is native (`false`); a total between 50 and 100
is native; and any extraction error yields the scanned (needs-OCR)
answer. -/
theorem c6_scanned_detection (pages : List (List Char)) :
    (is_pdf_scanned pages = true ↔
      stripLen ((pages.take 3).flatten) < 50) ∧
    (∀ n, 100 < stripLen (((pages.take 3).take n).flatten) →
      is_pdf_scanned pages = false) ∧
    (50 ≤ stripLen ((pages.take 3).flatten) →
      stripLen ((pages.take 3).flatten) ≤ 100 →
      is_pdf_scanned pages = false) ∧
    (∀ e : String, is_pdf_scanned_result (Except.error e) = true) := by
  have hiff : is_pdf_scanned pages = true ↔
      stripLen ((pages.take 3).flatten) < 50 := by
    rw [is_pdf_scanned, isPdfScannedLoop_iff, List.nil_append]
  refine ⟨hiff, ?_, ?_, fun e => rfl⟩
  · intro n hgt
    have hle := stripLen_take_flatten_le (pages.take 3) n
    have hnot : ¬ (stripLen ((pages.take 3).flatten) < 50) := by omega
    cases hb : is_pdf_scanned pages with
    | false => rfl
    | true => exact absurd (hiff.mp hb) hnot
  · intro h50 _
    have hnot : ¬ (stripLen ((pages.take 3).flatten) < 50) := by omega
    cases hb : is_pdf_scanned pages with
    | false => rfl
    | true => exact absurd (hiff.mp hb) hnot

/-- C6 witness: one page of 60 non-whitespace characters — between the
two thresholds — is classified native (not scanned). -/
theorem c6_witness :
    50 ≤ stripLen (([List.replicate 60 'x'].take 3).flatten) ∧
    stripLen (([List.replicate 60 'x'].take 3).flatten) ≤ 100 ∧
    is_pdf_scanned [List.replicate 60 'x'] = false :=
  ⟨by decide, by decide,
   (c6_scanned_detection [List.replicate 60 'x']).2.2.1 (by decide) (by decide)⟩

/-! ## C5: Reciprocal Rank Fusion -/

/-- Bumping one key changes only that key's score. -/
theorem lookupScore_bumpScore (scores : List (String × ℚ)) (id : String)
    (amt : ℚ) (c : String) :
    lookupScore (bumpScore scores id amt) c =
      lookupScore scores c + (if c = id then amt else 0) := by
  induction scores with
  | nil =>
      show lookupScore [(id, amt)] c = lookupScore [] c + _
      simp only [lookupScore]
      by_cases h : id = c
      · rw [if_pos h, if_pos h.symm, zero_add]
      · rw [if_neg h, if_neg (fun hh => h hh.symm), add_zero]
  | cons p rest ih =>
      obtain ⟨i, s⟩ := p
      simp only [bumpScore]
      by_cases h1 : i = id
      · rw [if_pos h1]
        simp only [lookupScore]
        by_cases h2 : i = c
        · rw [if_pos h2, if_pos h2, if_pos (h2.symm.trans h1)]
        · rw [if_neg h2, if_neg h2,
            if_neg (fun hh : c = id => h2 ((h1.trans hh.symm))), add_zero]
      · rw [if_neg h1]
        simp only [lookupScore]
        by_cases h2 : i = c
        · rw [if_pos h2, if_pos h2,
            if_neg (fun hh : c = id => h1 (h2.symm ▸ hh)), add_zero]
        · rw [if_neg h2, if_neg h2, ih]

/-- A content absent from a list has no rank at any offset. -/
theorem rankFrom_eq_none {rest : List LCDoc} {c : String}
    (h : ∀ d ∈ rest, d.page_content ≠ c) :
    ∀ k, rankFrom rest c k = none := by
  induction rest with
  | nil => intro k; rfl
  | cons d rest ih =>
      intro k
      rw [rankFrom, if_neg (h d (List.mem_cons_self _ _))]
      exact ih (fun x hx => h x (List.mem_cons_of_mem _ hx)) (k + 1)

/-- One ranked pass adds exactly `w / (rrf_k + rank)` to the score of
each listed content (provided contents are distinct within the list)
and leaves every other score unchanged. -/
theorem lookupScore_addRanked (w : ℚ) (docs : List LCDoc) (r : Nat)
    (scores : List (String × ℚ)) (c : String)
    (hnd : (docs.map LCDoc.page_content).Nodup) :
    lookupScore (addRanked w docs r scores) c =
      lookupScore scores c + rrfContrib w (rankFrom docs c r) := by
  induction docs generalizing r scores with
  | nil => simp [addRanked, rankFrom, rrfContrib]
  | cons d rest ih =>
      rw [List.map_cons, List.nodup_cons] at hnd
      rw [addRanked, ih _ _ hnd.2, lookupScore_bumpScore]
      by_cases h : d.page_content = c
      · have hnone : rankFrom rest c (r + 1) = none := by
          refine rankFrom_eq_none (fun x hx hxc => ?_) (r + 1)
          exact hnd.1 (h ▸ hxc ▸ List.mem_map_of_mem LCDoc.page_content hx)
        rw [rankFrom, if_pos h, hnone, if_pos h.symm]
        show _ + _ + (0 : ℚ) = _ + _
        rw [add_zero]
        rfl
      · rw [rankFrom, if_neg h, if_neg (fun hh : c = d.page_content => h hh.symm),
          add_zero]

/-- C5: the RRF score of each result is the sum, over each source list
it appears in, of that list's weight divided by `60 +` its 1-based rank
in that list, a chunk in both lists accumulating both contributions;
and, with the default weights 0.6/0.4, a document ranked 1st in both
lists scores strictly above one ranked 1st in only one of them
(whichever one). -/
theorem c5_rrf_scoring (sw bw : ℚ) (semantic : List LCDoc)
    (bm : List (LCDoc × ℚ)) (c : String)
    (hs : (semantic.map LCDoc.page_content).Nodup)
    (hb : ((bm.map Prod.fst).map LCDoc.page_content).Nodup) :
    (lookupScore (rrfScoreTable sw bw semantic bm) c =
      rrfContrib sw (rankOf semantic c) +
        rrfContrib bw (rankOf (bm.map Prod.fst) c)) ∧
    (∀ d e : LCDoc,
      lookupScore (rrfScoreTable semantic_weight bm25_weight [d] [(d, 1)])
          d.page_content >
        lookupScore (rrfScoreTable semantic_weight bm25_weight [e] [])
          e.page_content ∧
      lookupScore (rrfScoreTable semantic_weight bm25_weight [d] [(d, 1)])
          d.page_content >
        lookupScore (rrfScoreTable semantic_weight bm25_weight [] [(e, 1)])
          e.page_content) := by
  constructor
  · unfold rrfScoreTable rankOf
    rw [lookupScore_addRanked _ _ _ _ _ hb, lookupScore_addRanked _ _ _ _ _ hs]
    show (0 : ℚ) + _ + _ = _
    ring
  · intro d e
    constructor
    · show lookupScore (rrfScoreTable _ _ _ _) _ >
        lookupScore (rrfScoreTable _ _ _ _) _
      simp only [rrfScoreTable, addRanked, bumpScore, lookupScore,
        List.map_cons, List.map_nil, if_pos rfl]
      simp only [semantic_weight, bm25_weight, rrf_k]
      norm_num
    · show lookupScore (rrfScoreTable _ _ _ _) _ >
        lookupScore (rrfScoreTable _ _ _ _) _
      simp only [rrfScoreTable, addRanked, bumpScore, lookupScore,
        List.map_cons, List.map_nil, if_pos rfl]
      simp only [semantic_weight, bm25_weight, rrf_k]
      norm_num

/-- C5 witness: a chunk ranked 1st in both lists receives both default
contributions, `0.6/61 + 0.4/61`. -/
theorem c5_witness :
    (([(⟨"alpha", "s", none⟩ : LCDoc)].map LCDoc.page_content).Nodup) ∧
    ((([((⟨"alpha", "s", none⟩ : LCDoc), (1 : ℚ))].map Prod.fst).map
      LCDoc.page_content).Nodup) ∧
    lookupScore (rrfScoreTable semantic_weight bm25_weight
        [⟨"alpha", "s", none⟩] [(⟨"alpha", "s", none⟩, 1)]) "alpha" =
      rrfContrib semantic_weight (rankOf [⟨"alpha", "s", none⟩] "alpha") +
        rrfContrib bm25_weight
          (rankOf ([((⟨"alpha", "s", none⟩ : LCDoc), (1 : ℚ))].map Prod.fst)
            "alpha") :=
  ⟨by decide, by decide,
   (c5_rrf_scoring semantic_weight bm25_weight [⟨"alpha", "s", none⟩]
      [(⟨"alpha", "s", none⟩, 1)] "alpha" (by decide) (by decide)).1⟩

/-! ## C1: single active persona per owner -/

/-- With distinct ids, a record is determined by its id. -/
theorem prompt_eq_of_id {db : List SystemPrompt}
    (h : (db.map SystemPrompt.id).Nodup) {a b : SystemPrompt}
    (ha : a ∈ db) (hb : b ∈ db) (hid : a.id = b.id) : a = b := by
  induction db with
  | nil => cases ha
  | cons x rest ih =>
      rw [List.map_cons, List.nodup_cons] at h
      rcases List.mem_cons.mp ha with rfl | ha'
      · rcases List.mem_cons.mp hb with rfl | hb'
        · rfl
        · exact absurd (hid ▸ List.mem_map_of_mem SystemPrompt.id hb') h.1
      · rcases List.mem_cons.mp hb with rfl | hb'
        · exact absurd (hid ▸ List.mem_map_of_mem SystemPrompt.id ha') h.1
        · exact ih h.2 ha' hb'

/-- The activation lookup finds exactly the requested prompt. -/
theorem find?_activate_eq {db : List SystemPrompt} {B : SystemPrompt}
    {u : Option Nat}
    (h : (db.map SystemPrompt.id).Nodup) (hB : B ∈ db) (hBu : B.user = u) :
    db.find? (fun q => q.id == B.id && q.user == u) = some B := by
  induction db with
  | nil => cases hB
  | cons x rest ih =>
      by_cases hx : x.id = B.id
      · have hxB : x = B :=
          prompt_eq_of_id h (List.mem_cons_self _ _) hB hx
        subst hxB
        rw [List.find?_cons_of_pos _ (by simp [hBu])]
      · have hB' : B ∈ rest := by
          rcases List.mem_cons.mp hB with rfl | h'
          · exact absurd rfl hx
          · exact h'
        rw [List.map_cons, List.nodup_cons] at h
        rw [List.find?_cons_of_neg _ (by simp [hx])]
        exact ih h.2 hB'

/-- With distinct ids, exactly one record matches a member's id. -/
theorem countP_id_eq_one {db : List SystemPrompt} {B : SystemPrompt}
    (h : (db.map SystemPrompt.id).Nodup) (hB : B ∈ db) :
    db.countP (fun q => q.id == B.id) = 1 := by
  induction db with
  | nil => cases hB
  | cons x rest ih =>
      rw [List.map_cons, List.nodup_cons] at h
      rcases List.mem_cons.mp hB with rfl | hB'
      · have hz : rest.countP (fun q => q.id == B.id) = 0 := by
          rw [List.countP_eq_zero]
          intro a ha hpa
          exact h.1 ((beq_iff_eq.mp hpa) ▸
            List.mem_map_of_mem SystemPrompt.id ha)
        rw [List.countP_cons, hz]
        simp
      · have hxB : (x.id == B.id) = false := by
          rw [beq_eq_false_iff_ne]
          intro he
          exact h.1 (by rw [he]; exact List.mem_map_of_mem SystemPrompt.id hB')
        rw [List.countP_cons, hxB]
        simpa using ih h.2 hB'

/-- Saving an active prompt maps the whole scope. -/
theorem savePrompt_active_spec (db : List SystemPrompt) (p : SystemPrompt)
    (hp : p.is_active = true) :
    savePrompt db p = db.map (fun q =>
      if q.id = p.id then p
      else if q.user = p.user then { q with is_active := false }
      else q) := by
  unfold savePrompt
  rw [if_pos hp]

/-- C1: activating persona B while persona A is active for the same
owner leaves exactly one active prompt for that owner — B, with A
deactivated — and leaves the prompts of every other owner untouched
(position for position). -/
theorem c1_single_active_per_owner (db : List SystemPrompt) (u : Nat)
    (A B : SystemPrompt)
    (hnodup : (db.map SystemPrompt.id).Nodup)
    (hA : A ∈ db) (hAu : A.user = some u) (hAact : A.is_active = true)
    (hB : B ∈ db) (hBu : B.user = some u) (hAB : A.id ≠ B.id) :
    (activatePrompt db (some u) B.id).countP
        (fun q => q.user == some u && q.is_active) = 1 ∧
    ({ B with is_active := true } : SystemPrompt)
      ∈ activatePrompt db (some u) B.id ∧
    ({ A with is_active := false } : SystemPrompt)
      ∈ activatePrompt db (some u) B.id ∧
    (activatePrompt db (some u) B.id).filter (fun q => q.user != some u) =
      db.filter (fun q => q.user != some u) := by
  have hfind := find?_activate_eq hnodup hB hBu
  have hact : activatePrompt db (some u) B.id
      = savePrompt db { B with is_active := true } := by
    unfold activatePrompt
    rw [hfind]
  rw [hact, savePrompt_active_spec db { B with is_active := true } rfl]
  refine ⟨?_, ?_, ?_, ?_⟩
  · rw [List.countP_map]
    have hbool : ∀ a ∈ db,
        ((fun q => q.user == some u && q.is_active) ∘ (fun q =>
          if q.id = ({ B with is_active := true } : SystemPrompt).id
            then ({ B with is_active := true } : SystemPrompt)
          else if q.user = ({ B with is_active := true } : SystemPrompt).user
            then { q with is_active := false } else q)) a
        = (a.id == B.id) := by
      intro a _
      show (fun q => q.user == some u && q.is_active)
          (if a.id = ({ B with is_active := true } : SystemPrompt).id
            then ({ B with is_active := true } : SystemPrompt)
          else if a.user = ({ B with is_active := true } : SystemPrompt).user
            then { a with is_active := false } else a)
        = (a.id == B.id)
      split
      · next hcond =>
          have h1 : a.id = B.id := hcond
          simp [hBu, h1]
      · next hcond =>
          have h1 : a.id ≠ B.id := hcond
          have hbeq1 : (a.id == B.id) = false := beq_eq_false_iff_ne.mpr h1
          split
          · simp [hbeq1]
          · next hcond2 =>
              have h2 : a.user ≠ some u := fun hh =>
                hcond2 (show a.user = B.user from hh.trans hBu.symm)
              have hbeq2 : (a.user == some u) = false :=
                beq_eq_false_iff_ne.mpr h2
              simp [hbeq1, hbeq2]
    rw [List.countP_congr (fun a ha => by rw [hbool a ha]),
      countP_id_eq_one hnodup hB]
  · refine List.mem_map.mpr ⟨B, hB, ?_⟩
    show (if B.id = ({ B with is_active := true } : SystemPrompt).id
        then ({ B with is_active := true } : SystemPrompt)
        else if B.user = ({ B with is_active := true } : SystemPrompt).user
          then { B with is_active := false } else B)
      = ({ B with is_active := true } : SystemPrompt)
    split
    · rfl
    · next h => exact absurd rfl h
  · refine List.mem_map.mpr ⟨A, hA, ?_⟩
    show (if A.id = ({ B with is_active := true } : SystemPrompt).id
        then ({ B with is_active := true } : SystemPrompt)
        else if A.user = ({ B with is_active := true } : SystemPrompt).user
          then { A with is_active := false } else A)
      = ({ A with is_active := false } : SystemPrompt)
    split
    · next h => exact absurd (show A.id = B.id from h) hAB
    · split
      · rfl
      · next h =>
          exact absurd (show A.user = B.user from hAu.trans hBu.symm) h
  · rw [List.filter_map]
    have hpt : ∀ a ∈ db,
        ((fun q => q.user != some u) ∘ (fun q =>
          if q.id = ({ B with is_active := true } : SystemPrompt).id
            then ({ B with is_active := true } : SystemPrompt)
          else if q.user = ({ B with is_active := true } : SystemPrompt).user
            then { q with is_active := false } else q)) a
        = (fun q => q.user != some u) a := by
      intro a ha
      show (fun q => q.user != some u)
          (if a.id = ({ B with is_active := true } : SystemPrompt).id
            then ({ B with is_active := true } : SystemPrompt)
          else if a.user = ({ B with is_active := true } : SystemPrompt).user
            then { a with is_active := false } else a)
        = (fun q => q.user != some u) a
      split
      · next hcond =>
          have haB : a = B := prompt_eq_of_id hnodup ha hB hcond
          subst haB
          rfl
      · split
        · rfl
        · rfl
    rw [List.filter_congr hpt]
    have hid : ∀ a ∈ db.filter (fun q => q.user != some u),
        (fun q =>
          if q.id = ({ B with is_active := true } : SystemPrompt).id
            then ({ B with is_active := true } : SystemPrompt)
          else if q.user = ({ B with is_active := true } : SystemPrompt).user
            then { q with is_active := false } else q) a = id a := by
      intro a ha
      rw [List.mem_filter] at ha
      have hane : a.user ≠ some u := by simpa using ha.2
      show (if a.id = ({ B with is_active := true } : SystemPrompt).id
          then ({ B with is_active := true } : SystemPrompt)
          else if a.user = ({ B with is_active := true } : SystemPrompt).user
            then { a with is_active := false } else a)
        = id a
      rw [id_eq]
      split
      · next hcond =>
          exact absurd
            (by rw [prompt_eq_of_id hnodup ha.1 hB hcond]; exact hBu) hane
      · split
        · next hcond2 =>
            exact absurd ((show a.user = B.user from hcond2).trans hBu) hane
        · rfl
    rw [List.map_congr_left hid, List.map_id]

/-- C1 witness: owner 10 has persona 1 active; activating persona 2
leaves exactly one active prompt for owner 10, and persona 2 is the
active one (owner 20's active persona is untouched by the theorem's
last conjunct). -/
theorem c1_witness :
    ((([⟨1, some 10, "a", "", true⟩, ⟨2, some 10, "b", "", false⟩,
        ⟨3, some 20, "c", "", true⟩] : List SystemPrompt).map
        SystemPrompt.id).Nodup) ∧
    (activatePrompt
        [⟨1, some 10, "a", "", true⟩, ⟨2, some 10, "b", "", false⟩,
         ⟨3, some 20, "c", "", true⟩] (some 10) 2).countP
      (fun q => q.user == some 10 && q.is_active) = 1 ∧
    ({ id := 2, user := some 10, name := "b", content := "",
        is_active := true } : SystemPrompt) ∈
      activatePrompt
        [⟨1, some 10, "a", "", true⟩, ⟨2, some 10, "b", "", false⟩,
         ⟨3, some 20, "c", "", true⟩] (some 10) 2 :=
  ⟨by decide,
   (c1_single_active_per_owner
      [⟨1, some 10, "a", "", true⟩, ⟨2, some 10, "b", "", false⟩,
       ⟨3, some 20, "c", "", true⟩] 10
      ⟨1, some 10, "a", "", true⟩ ⟨2, some 10, "b", "", false⟩
      (by decide) (by decide) rfl rfl (by decide) rfl (by decide)).1,
   (c1_single_active_per_owner
      [⟨1, some 10, "a", "", true⟩, ⟨2, some 10, "b", "", false⟩,
       ⟨3, some 20, "c", "", true⟩] 10
      ⟨1, some 10, "a", "", true⟩ ⟨2, some 10, "b", "", false⟩
      (by decide) (by decide) rfl rfl (by decide) rfl (by decide)).2.1⟩
